import Mathlib

/-!
Verification development for a WhatsApp message-store service written in Go.

The service persists chats and messages in two SQL tables
(`chats(jid, name, last_message_time)` and
`messages(id, chat_jid, sender, content, timestamp, is_from_me, media_type,
filename, url, media_key, file_sha256, file_enc_sha256, file_length)` with
primary key `(id, chat_jid)`), answers filtered/windowed read queries over
them, reconciles bulk history-sync payloads, and analyzes Ogg Opus audio
buffers to derive a playback duration and a placeholder waveform.

This file shallowly embeds the relevant Go functions:
  * the `messages`/`chats` tables become lists of rows; the dialect-specific
    upserts (`INSERT OR REPLACE` for SQLite, `INSERT ... ON CONFLICT DO
    UPDATE` for Postgres) both implement a replace-all-columns upsert keyed
    by the primary key, modelled once;
  * SQL row sets are lists in table order, `ORDER BY` is an explicit sort,
    `LIMIT`/`OFFSET` are `take`/`drop`, `QueryRow` is `head?`/`find?`;
  * `database/sql` errors are an `Except String`; the only error the model
    can produce is `sql.ErrNoRows` (driver/connection failures are out of
    scope), matching the `err == sql.ErrNoRows` branches in the source;
  * Go `time.Time` values are integers (only their ordering and equality
    matter to the embedded queries); `time.Parse(time.RFC3339, s)` is an
    abstract parameter `String → Option Int`;
  * in the audio analyzer, `float64` arithmetic is carried out in `ℚ` with
    `math.Sin` and the seeded `math/rand` generator abstracted as
    parameters; every verified property of the analyzer is insensitive to
    the values those parameters produce.
-/

/-- Timestamps: an abstract dialect-portable `TIMESTAMP` value. Only ordering
and equality are used by the embedded queries. -/
abbrev Ts := Int

/-- A row of the `messages` table, mirroring the column list used by
`StoreMessage`: `(id, chat_jid, sender, content, timestamp, is_from_me,
media_type, filename, url, media_key, file_sha256, file_enc_sha256,
file_length)`. Blob columns are byte lists, `file_length` is a `uint64`
value. -/
structure MessageRow where
  id : String
  chat_jid : String
  sender : String
  content : String
  timestamp : Ts
  is_from_me : Bool
  media_type : String
  filename : String
  url : String
  media_key : List Nat
  file_sha256 : List Nat
  file_enc_sha256 : List Nat
  file_length : Nat
deriving DecidableEq, Repr

/-- A row of the `chats` table: `chats(jid TEXT PRIMARY KEY, name TEXT,
last_message_time TIMESTAMP)`. -/
structure ChatRow where
  jid : String
  name : String
  last_message_time : Ts
deriving DecidableEq, Repr

/-- The message store owned by the Go `MessageStore`: the two tables, each a
list of rows in table order. -/
structure DB where
  chats : List ChatRow
  messages : List MessageRow
deriving DecidableEq, Repr

/-- Key predicate for the `messages` primary key `(id, chat_jid)`. -/
def msgKeyIs (id chatJID : String) (m : MessageRow) : Bool :=
  m.id = id && m.chat_jid = chatJID

/-- Replace-all-columns upsert into `messages` keyed by `(id, chat_jid)`.
Both dialect branches of `StoreMessage` (SQLite `INSERT OR REPLACE`,
Postgres `INSERT ... ON CONFLICT(id, chat_jid) DO UPDATE SET` over every
column) have this semantics: any existing row with the key is replaced by
the new values. -/
def upsertMessageRow (msgs : List MessageRow) (r : MessageRow) : List MessageRow :=
  msgs.filter (fun m => !msgKeyIs r.id r.chat_jid m) ++ [r]

/-- Embeds `MessageStore.StoreMessage`: returns success without writing when
`content == "" && mediaType == ""`, otherwise upserts the row keyed by
`(id, chat_jid)`. The Go function returns only a driver error, which the
model cannot produce, so the new store stands for a successful return. -/
def StoreMessage (db : DB) (id chatJID sender content : String) (timestamp : Ts)
    (isFromMe : Bool) (mediaType filename url : String)
    (mediaKey fileSHA256 fileEncSHA256 : List Nat) (fileLength : Nat) : DB :=
  if content = "" ∧ mediaType = "" then db
  else { db with
    messages := upsertMessageRow db.messages
      ⟨id, chatJID, sender, content, timestamp, isFromMe, mediaType, filename,
        url, mediaKey, fileSHA256, fileEncSHA256, fileLength⟩ }

/-- Replace-all-columns upsert into `chats` keyed by `jid`, embedding both
dialect branches of `MessageStore.StoreChat`. -/
def StoreChat (db : DB) (jid name : String) (lastMessageTime : Ts) : DB :=
  { db with
    chats := db.chats.filter (fun c => !(c.jid = jid : Bool)) ++ [⟨jid, name, lastMessageTime⟩] }

/-- Point lookup of a message row by its primary key, embedding
`SELECT ... FROM messages WHERE id = ? AND chat_jid = ?` read by `QueryRow`:
the first matching row in table order, or `none` when no row matches. -/
def findMessage (db : DB) (id chatJID : String) : Option MessageRow :=
  db.messages.find? (msgKeyIs id chatJID)

/-- Embeds `MessageStore.GetMediaInfo`: point lookup of the media columns
`(media_type, filename, url, media_key, file_sha256, file_enc_sha256,
file_length)` by `(id, chat_jid)`. `none` models the `sql.ErrNoRows`
failure returned when no row matches. -/
def GetMediaInfo (db : DB) (id chatJID : String) :
    Option (String × String × String × List Nat × List Nat × List Nat × Nat) :=
  (findMessage db id chatJID).map
    (fun m => (m.media_type, m.filename, m.url, m.media_key, m.file_sha256,
      m.file_enc_sha256, m.file_length))

/-! ### SQL `ORDER BY` as an explicit sort

A total `ORDER BY` leaves the relative order of tied rows unspecified; an
insertion sort realizes one admissible ordering, and every verified property
uses only its sortedness, membership and length. -/

/-- Insert `x` into `l` keeping elements ordered so that `le later earlier`
never fails from left to right: `x` is placed before the first element `y`
with `le y x`. -/
def insertBy (le : α → α → Bool) (x : α) : List α → List α
  | [] => [x]
  | y :: ys => if le y x then x :: y :: ys else y :: insertBy le x ys

/-- Insertion sort; with `le a b` meaning "`a` sorts after `b`", the result
lists elements greatest-first with respect to `le`. -/
def sortBy (le : α → α → Bool) : List α → List α
  | [] => []
  | x :: xs => insertBy le x (sortBy le xs)

theorem length_insertBy (le : α → α → Bool) (x : α) (l : List α) :
    (insertBy le x l).length = l.length + 1 := by
  induction l with
  | nil => rfl
  | cons y ys ih =>
    simp only [insertBy]
    split <;> simp [ih]

theorem length_sortBy (le : α → α → Bool) (l : List α) :
    (sortBy le l).length = l.length := by
  induction l with
  | nil => rfl
  | cons x xs ih => simp [sortBy, length_insertBy, ih]

theorem mem_insertBy (le : α → α → Bool) (x : α) (l : List α) (a : α) :
    a ∈ insertBy le x l ↔ a = x ∨ a ∈ l := by
  induction l with
  | nil => simp [insertBy]
  | cons y ys ih =>
    simp only [insertBy]
    split
    · simp
    · simp only [List.mem_cons, ih]
      tauto

theorem mem_sortBy (le : α → α → Bool) (l : List α) (a : α) :
    a ∈ sortBy le l ↔ a ∈ l := by
  induction l with
  | nil => simp [sortBy]
  | cons x xs ih => simp [sortBy, mem_insertBy, ih]

theorem pairwise_insertBy (le : α → α → Bool)
    (htot : ∀ a b : α, le a b = true ∨ le b a = true)
    (htrans : ∀ a b c : α, le a b = true → le b c = true → le a c = true)
    (x : α) (l : List α) (hl : l.Pairwise (fun a b => le b a = true)) :
    (insertBy le x l).Pairwise (fun a b => le b a = true) := by
  induction l with
  | nil => simp [insertBy]
  | cons y ys ih =>
    rcases List.pairwise_cons.mp hl with ⟨hy, hys⟩
    simp only [insertBy]
    split
    · rename_i hle
      refine List.pairwise_cons.mpr ⟨?_, hl⟩
      intro z hz
      rcases List.mem_cons.mp hz with hz | hz
      · subst hz; exact hle
      · exact htrans _ _ _ (hy z hz) hle
    · rename_i hnle
      have hxy : le x y = true := by
        rcases htot x y with h | h
        · exact h
        · exact absurd h hnle
      refine List.pairwise_cons.mpr ⟨?_, ih hys⟩
      intro z hz
      rcases (mem_insertBy le x ys z).mp hz with hz | hz
      · subst hz; exact hxy
      · exact hy z hz

theorem pairwise_sortBy (le : α → α → Bool)
    (htot : ∀ a b : α, le a b = true ∨ le b a = true)
    (htrans : ∀ a b c : α, le a b = true → le b c = true → le a c = true)
    (l : List α) :
    (sortBy le l).Pairwise (fun a b => le b a = true) := by
  induction l with
  | nil => simp [sortBy]
  | cons x xs ih => exact pairwise_insertBy le htot htrans x _ ih

/-! ### The `messages ⋈ chats` join -/

/-- First row of the `chats` table with the given `jid` (`jid` is the
primary key, so at most one row exists in any store reachable through
`StoreChat`). -/
def lookupChat (db : DB) (jid : String) : Option ChatRow :=
  db.chats.find? (fun c => c.jid = jid)

/-- Embeds `FROM messages m JOIN chats c ON m.chat_jid = c.jid`: each
message row paired with its chat row, in `messages` table order; messages
whose chat row is absent are dropped by the inner join. -/
def joinAll (db : DB) : List (MessageRow × ChatRow) :=
  db.messages.filterMap (fun m => (lookupChat db m.chat_jid).map (fun c => (m, c)))

theorem mem_joinAll (db : DB) (mc : MessageRow × ChatRow) :
    mc ∈ joinAll db ↔ mc.1 ∈ db.messages ∧ lookupChat db mc.1.chat_jid = some mc.2 := by
  rcases mc with ⟨m, c⟩
  simp [joinAll, List.mem_filterMap]

/-- Referential integrity of the schema's
`FOREIGN KEY (chat_jid) REFERENCES chats(jid)` (SQLite is opened with
`_foreign_keys=on`): every message's chat row exists. -/
def FKInv (db : DB) : Prop :=
  ∀ m ∈ db.messages, ∃ c ∈ db.chats, c.jid = m.chat_jid

/-! ### Query engine -/

/-- The row shape produced by the message queries (`MessageInteraction` in
the source). `ChatName`/`MediaType` are scanned through `sql.NullString` and
left as the zero value when NULL; rows written by `StoreMessage`/`StoreChat`
always set these columns, so the model keeps them as plain strings. -/
structure MessageInteraction where
  timestamp : Ts
  sender : String
  content : String
  is_from_me : Bool
  chat_jid : String
  id : String
  chat_name : String
  media_type : String
deriving DecidableEq, Repr

/-- Builds a `MessageInteraction` from a joined row, with the column list
`m.timestamp, m.sender, c.name, m.content, m.is_from_me, c.jid, m.id,
m.media_type` shared by the message queries. -/
def mkInteraction (m : MessageRow) (c : ChatRow) : MessageInteraction :=
  ⟨m.timestamp, m.sender, m.content, m.is_from_me, c.jid, m.id, c.name, m.media_type⟩

/-- Comparator realizing `ORDER BY m.timestamp DESC` on joined rows. -/
def tsDescLe (a b : MessageRow × ChatRow) : Bool :=
  decide (a.1.timestamp ≤ b.1.timestamp)

/-- Comparator realizing `ORDER BY m.timestamp ASC` on joined rows. -/
def tsAscLe (a b : MessageRow × ChatRow) : Bool :=
  decide (b.1.timestamp ≤ a.1.timestamp)

/-- Contiguous-subsequence test: `pat` occurs somewhere in the list. -/
def containsSeq [BEq α] (pat : List α) : List α → Bool
  | [] => pat.isEmpty
  | x :: xs => pat.isPrefixOf (x :: xs) || containsSeq pat xs

/-- Character-list lowercasing (`LOWER` / `strings.ToLower`, restricted to
the per-character case mapping). -/
def lowerChars (l : List Char) : List Char := l.map Char.toLower

/-- Case-insensitive substring containment, realizing
`LOWER(col) LIKE LOWER('%' || q || '%')` (and SQLite's default
case-insensitive `LIKE`). -/
def likeContains (hay needle : String) : Bool :=
  containsSeq (lowerChars needle.data) (lowerChars hay.data)

/-- Suffix match realizing `LIKE '%@g.us'` (no trailing wildcard). -/
def likeEndsWith (hay pat : String) : Bool :=
  (lowerChars pat.data).isSuffixOf (lowerChars hay.data)

/-- The result shape of `GetMessageContext` (`MessageContext` in the
source). -/
structure MessageContext where
  message : MessageInteraction
  before : List MessageInteraction
  after : List MessageInteraction
deriving DecidableEq, Repr


/-- The before window of `GetMessageContext` for an anchor message `m`:
`WHERE m.chat_jid = ? AND m.timestamp < ? ORDER BY m.timestamp DESC
LIMIT n` over the joined rows. -/
def contextBeforeRows (db : DB) (m : MessageRow) (n : Nat) : List MessageInteraction :=
  ((sortBy tsDescLe ((joinAll db).filter
      (fun x => x.1.chat_jid == m.chat_jid && decide (x.1.timestamp < m.timestamp)))).take
        n).map (fun x => mkInteraction x.1 x.2)

/-- The after window of `GetMessageContext` for an anchor message `m`:
`WHERE m.chat_jid = ? AND m.timestamp > ? ORDER BY m.timestamp ASC
LIMIT n` over the joined rows. -/
def contextAfterRows (db : DB) (m : MessageRow) (n : Nat) : List MessageInteraction :=
  ((sortBy tsAscLe ((joinAll db).filter
      (fun x => x.1.chat_jid == m.chat_jid && decide (m.timestamp < x.1.timestamp)))).take
        n).map (fun x => mkInteraction x.1 x.2)

/-- Embeds `MessageStore.GetMessageContext`. The anchor query
`WHERE m.id = ?` (no chat filter, no ORDER BY) is read with `QueryRow`,
giving the first joined row whose message id matches; `sql.ErrNoRows`
becomes the "message not found" error. The before window filters the
anchor's chat (`m.chat_jid = chatJid2`) with `m.timestamp < ts`,
`ORDER BY m.timestamp DESC LIMIT before`; the after window uses
`m.timestamp > ts`, `ORDER BY m.timestamp ASC LIMIT after`. The Go limit
arguments are `int`; the claims under verification quantify over the
non-negative range, modelled as `Nat`. -/
def GetMessageContext (db : DB) (messageID : String) (before after : Nat) :
    Except String MessageContext :=
  match (joinAll db).find? (fun mc => mc.1.id == messageID) with
  | none => .error ("message not found: " ++ messageID)
  | some mc =>
    .ok ⟨mkInteraction mc.1 mc.2, contextBeforeRows db mc.1 before,
      contextAfterRows db mc.1 after⟩

/-- The filter/pagination parameters of `ListMessages`
(`ListMessagesParams` in the source). Empty string / `none` disables a
filter. -/
structure ListMessagesParams where
  After : String
  Before : String
  SenderPhoneNumber : Option String
  ChatJid : Option String
  Query : Option String
  Limit : Nat
  Page : Nat
  IncludeContext : Bool
  ContextBefore : Nat
  ContextAfter : Nat
deriving Repr

/-- The conjunction of `WHERE` clauses `ListMessages` assembles: each active
filter contributes one conjunct (`m.timestamp > after`,
`m.timestamp < before`, `m.sender = ?`, `m.chat_jid = ?`,
`LOWER(m.content) LIKE LOWER('%q%')`). The parse results are passed in;
the `none` branches are unreachable once parsing has been validated. -/
def listMessagesCond (parse : String → Option Ts) (p : ListMessagesParams)
    (x : MessageRow × ChatRow) : Bool :=
  (p.After == "" || (match parse p.After with
    | some t => decide (t < x.1.timestamp)
    | none => false)) &&
  (p.Before == "" || (match parse p.Before with
    | some t => decide (x.1.timestamp < t)
    | none => false)) &&
  (match p.SenderPhoneNumber with
    | some s => s == "" || x.1.sender == s
    | none => true) &&
  (match p.ChatJid with
    | some cj => cj == "" || x.1.chat_jid == cj
    | none => true) &&
  (match p.Query with
    | some q => q == "" || likeContains x.1.content q
    | none => true)

/-- Embeds the query/scan portion of `MessageStore.ListMessages`: a
non-empty `After`/`Before` that `time.Parse(time.RFC3339, ·)` rejects fails
with a validation error before any query runs (the `After` check comes
first); otherwise the conjunctive filters are applied to the joined rows,
ordered by `timestamp DESC`, with `LIMIT limit OFFSET page*limit`. The
textual rendering through `FormatMessagesList` (and the optional context
expansion) consumes these rows downstream and is embedded separately by
`FormatMessage`. -/
def ListMessages (parse : String → Option Ts) (db : DB) (p : ListMessagesParams) :
    Except String (List MessageInteraction) :=
  if p.After ≠ "" ∧ parse p.After = none then .error ("invalid after format: " ++ p.After)
  else if p.Before ≠ "" ∧ parse p.Before = none then .error ("invalid before format: " ++ p.Before)
  else
    let sorted := sortBy tsDescLe ((joinAll db).filter (listMessagesCond parse p))
    .ok (((sorted.drop (p.Page * p.Limit)).take p.Limit).map (fun x => mkInteraction x.1 x.2))

/-! ### Chat point lookups and formatting -/

/-- The chat row shape returned to callers (`Chat` in the source). -/
structure Chat where
  jid : String
  name : String
  last_message_time : Ts
  last_message : String
  last_sender : String
  last_is_from_me : Bool
deriving DecidableEq, Repr

/-- The `LEFT JOIN messages m ON c.jid = m.chat_jid AND c.last_message_time
= m.timestamp` enrichment: the first message of the chat whose timestamp
equals the chat's `last_message_time`, when any. -/
def lastMessageFor (db : DB) (c : ChatRow) : Option MessageRow :=
  db.messages.find? (fun m => m.chat_jid == c.jid && decide (m.timestamp = c.last_message_time))

/-- Assembles a `Chat` from its row and the optional last-message
enrichment; NULL enrichment columns scan to the zero values. -/
def chatRowToChat (c : ChatRow) (lm : Option MessageRow) : Chat :=
  { jid := c.jid, name := c.name, last_message_time := c.last_message_time,
    last_message := (lm.map (·.content)).getD "",
    last_sender := (lm.map (·.sender)).getD "",
    last_is_from_me := (lm.map (·.is_from_me)).getD false }

/-- Embeds `MessageStore.GetChat`: point lookup `WHERE c.jid = ?`; the
`sql.ErrNoRows` branch returns `nil, nil`, modelled `.ok none`. -/
def GetChat (db : DB) (chatJID : String) (includeLastMessage : Bool) :
    Except String (Option Chat) :=
  match db.chats.find? (fun c => c.jid == chatJID) with
  | none => .ok none
  | some c =>
      .ok (some (chatRowToChat c (if includeLastMessage then lastMessageFor db c else none)))

/-- Embeds `MessageStore.GetDirectChatByContact`:
`WHERE c.jid LIKE '%phone%' AND c.jid NOT LIKE '%@g.us' LIMIT 1` with the
last-message LEFT JOIN. The `Scan` error is returned unchanged — there is no
`sql.ErrNoRows` special case — so a query matching no row fails with the
driver's no-rows error instead of returning an absent chat. -/
def GetDirectChatByContact (db : DB) (phone : String) : Except String (Option Chat) :=
  match (db.chats.filter
      (fun c => likeContains c.jid phone && !likeEndsWith c.jid "@g.us")).head? with
  | none => .error "sql: no rows in result set"
  | some c => .ok (some (chatRowToChat c (lastMessageFor db c)))

/-- The portion of `senderJID` before `'@'`, as computed with
`strings.Index`: the prefix only when the separator occurs at a positive
index, the whole string otherwise. -/
def phonePartOf (jid : String) : String :=
  match jid.data.findIdx? (· == '@') with
  | some idx => if idx > 0 then ⟨jid.data.take idx⟩ else jid
  | none => jid

/-- Fallback half of `GetSenderName`: `SELECT name FROM chats WHERE jid
LIKE '%phonePart%' LIMIT 1`, returning the raw identifier when no row with a
non-empty name is found. -/
def senderNameLike (db : DB) (senderJID : String) : String :=
  match db.chats.find? (fun c => likeContains c.jid (phonePartOf senderJID)) with
  | some c => if c.name ≠ "" then c.name else senderJID
  | none => senderJID

/-- Embeds `MessageStore.GetSenderName`: exact-jid name lookup, falling back
to a substring match on the phone-number portion, falling back to the raw
identifier. A found row with an empty name falls through, as in the source
(`err == nil && name != ""`). -/
def GetSenderName (db : DB) (senderJID : String) : String :=
  match db.chats.find? (fun c => c.jid == senderJID) with
  | some c => if c.name ≠ "" then c.name else senderNameLike db senderJID
  | none => senderNameLike db senderJID

/-- Stands in for `Timestamp.Format("2006-01-02 15:04:05")`: a fixed
rendering of the abstract timestamp value. No verified property depends on
the concrete text. -/
def formatTs (t : Ts) : String := toString t

/-- Embeds `MessageStore.FormatMessage`: one transcript line
`[timestamp] (Chat: name )From: sender: [media_type - Message ID: id -
Chat JID: chat_jid ]content`, with the sender resolved to "Me" for own
messages and through `GetSenderName` otherwise. -/
def FormatMessage (db : DB) (msg : MessageInteraction) (showChatInfo : Bool) : String :=
  let ts := formatTs msg.timestamp
  let head := if showChatInfo ∧ msg.chat_name ≠ "" then
      "[" ++ ts ++ "] Chat: " ++ msg.chat_name ++ " "
    else "[" ++ ts ++ "] "
  let mediaTag := if msg.media_type ≠ "" then
      "[" ++ msg.media_type ++ " - Message ID: " ++ msg.id ++ " - Chat JID: " ++
        msg.chat_jid ++ "] "
    else ""
  let senderName := if msg.is_from_me then "Me" else GetSenderName db msg.sender
  head ++ "From: " ++ senderName ++ ": " ++ mediaTag ++ msg.content ++ "\n"

/-- Embeds `MessageStore.GetLastInteraction`: most recent joined message
with `m.sender = ? OR c.jid = ?` (`ORDER BY m.timestamp DESC LIMIT 1`),
formatted; the `sql.ErrNoRows` branch returns `"", nil`, modelled
`.ok ""`. -/
def GetLastInteraction (db : DB) (jid : String) : Except String String :=
  match (sortBy tsDescLe ((joinAll db).filter
      (fun x => x.1.sender == jid || x.2.jid == jid))).head? with
  | none => .ok ""
  | some x => .ok (FormatMessage db (mkInteraction x.1 x.2) true)

/-! ### Container analyzer (`analyzeOggOpus` / `placeholderWaveform`)

The byte-level page scan is embedded at two levels. `scanPages` /
`analyzeOggOpus` are result-level: total functions that truncate any slice
at the buffer end, exact wherever the Go scan stays within `len(data)`;
the claims that use them are conditional on the call returning a result.
`scanPagesChecked` / `analyzeOggOpusRun` are run-level: they return `none`
exactly where one of the Go slice expressions would exceed `len(data)` — a
page whose declared payload, or whose OpusHead `sampleRate` read, overruns
the buffer. There Go's behavior depends on the slice capacity and heap,
not the bytes: a bound past `cap(data)` panics at run time and a bound
between `len` and `cap` reads bytes outside the modelled buffer, so no
result of the model stands for it. `float64` arithmetic is carried out in
`ℚ`, with `math.Sin` and the duration-seeded `math/rand` stream abstracted
as parameters `sinQ` and `rngOf` (`rngOf seed i` is the `i`-th `Float64()`
draw of a generator seeded with `seed`). Every verified property holds for
all values of these parameters. -/

/-- Go slice `data[i : i+n]` over the modelled byte buffer, truncated at
the buffer end. The truncation is only a totalization device: wherever a
slice would run past `len(data)` the checked scan (`scanPagesChecked`)
yields `none` instead, so no verified statement about execution results
rests on truncated reads. -/
def byteSlice (data : List Nat) (i n : Nat) : List Nat :=
  (data.drop i).take n

/-- Little-endian integer value of a byte list
(`binary.LittleEndian.UintNN`). -/
def leNum (bytes : List Nat) : Nat :=
  bytes.foldr (fun b acc => b + 256 * acc) 0

/-- First index at which `pat` occurs as a contiguous block
(`bytes.Index`; `none` models the `-1` return). -/
def findSeqIdx [BEq α] (pat : List α) : List α → Option Nat
  | [] => if pat.isEmpty then some 0 else none
  | x :: xs =>
    if pat.isPrefixOf (x :: xs) then some 0 else (findSeqIdx pat xs).map (· + 1)

/-- The 4-byte Ogg capture pattern "OggS". -/
def oggSBytes : List Nat := [79, 103, 103, 83]

/-- The 8-byte "OpusHead" marker. -/
def opusHeadBytes : List Nat := [79, 112, 117, 115, 72, 101, 97, 100]

/-- Mutable state of the page-scanning loop in `analyzeOggOpus`:
`lastGranule`, `sampleRate` (default 48000), `preSkip` (default 0) and the
`foundOpusHead` flag. -/
structure OggScanState where
  lastGranule : Nat
  sampleRate : Nat
  preSkip : Nat
  foundOpusHead : Bool
deriving DecidableEq, Repr

/-- The OpusHead branch of the page scan: locate the marker in the page,
and behind its guards read `preSkip` (2 bytes at marker+18) and
`sampleRate` (4 bytes at marker+20), as the source does after advancing
`headPos` by 8. -/
def opusHeadScan (pageData : List Nat) (st : OggScanState) : OggScanState :=
  match findSeqIdx opusHeadBytes pageData with
  | none => st
  | some headPos =>
    if headPos + 12 < pageData.length then
      let hp := headPos + 8
      if hp + 12 ≤ pageData.length then
        { st with
          preSkip := leNum (byteSlice pageData (hp + 10) 2),
          sampleRate := leNum (byteSlice pageData (hp + 12) 4),
          foundOpusHead := true }
      else st
    else st

/-- The page-scanning loop of `analyzeOggOpus`. The loop index `i` strictly
increases every iteration (by the page size, at least 27, or by 1 when no
page signature is at `i`) and the loop exits once `i + 27 ≥ len(data)`, so
`data.length` iterations of fuel always suffice. -/
def scanPages (data : List Nat) : Nat → Nat → OggScanState → OggScanState
  | 0, _, st => st
  | fuel + 1, i, st =>
    if i + 27 ≥ data.length then st
    else if byteSlice data i 4 ≠ oggSBytes then scanPages data fuel (i + 1) st
    else
      let granulePos := leNum (byteSlice data (i + 6) 8)
      let pageSeqNum := leNum (byteSlice data (i + 18) 4)
      let numSegments := data.getD (i + 26) 0
      if i + 27 + numSegments ≥ data.length then st
      else
        let segmentTable := byteSlice data (i + 27) numSegments
        let pageSize := 27 + numSegments + segmentTable.sum
        let st1 := if !st.foundOpusHead && decide (pageSeqNum ≤ 1) then
            opusHeadScan (byteSlice data i pageSize) st
          else st
        let st2 := if granulePos ≠ 0 then { st1 with lastGranule := granulePos } else st1
        scanPages data fuel (i + pageSize) st2

/-- Embeds `placeholderWaveform`: 64 samples, each two summed sine
harmonics (base amplitude 35, frequency scaling by `min(duration,120)/30`),
plus seeded jitter in `(-7.5, 7.5)`, a fade-in/out envelope, a shift by 50
and a final clamp of the value to `[0, 100]` before the `byte` conversion
(truncation toward zero, i.e. floor of the clamped non-negative value). -/
def placeholderWaveform (sinQ : ℚ → ℚ) (rngOf : ℕ → ℕ → ℚ) (duration : ℕ) : List ℕ :=
  (List.range 64).map (fun (i : ℕ) =>
    let pos : ℚ := (i : ℚ) / 64
    let frequencyFactor : ℚ := ((min duration 120 : ℕ) : ℚ) / 30
    let v1 : ℚ := 35 * sinQ (pos * (3.141592653589793 : ℚ) * frequencyFactor * 8)
      + (35 / 2) * sinQ (pos * (3.141592653589793 : ℚ) * frequencyFactor * 16)
      + (rngOf duration i - 1 / 2) * 15
    let fadeInOut := sinQ (pos * (3.141592653589793 : ℚ))
    let v2 := v1 * (7 / 10 + 3 / 10 * fadeInOut)
    let v3 := v2 + 50
    let v4 : ℚ := if v3 < 0 then 0 else if v3 > 100 then 100 else v3
    (⌊v4⌋).toNat)

/-- The raw (pre-clamp) duration `analyzeOggOpus` computes from a final
scan state:
`uint32(ceil(float64(lastGranule − preSkip) / float64(sampleRate)))` when
a non-zero granule was seen (with `uint64` wraparound on the subtraction),
otherwise `uint32(float64(len(data)) / 2000)`. -/
def oggRawDurationOf (st : OggScanState) (len : Nat) : Nat :=
  if st.lastGranule > 0 then
    (⌈(((st.lastGranule + 2 ^ 64 - st.preSkip) % 2 ^ 64 : ℕ) : ℚ) /
      (st.sampleRate : ℚ)⌉).toNat % 2 ^ 32
  else
    (⌊((len : ℕ) : ℚ) / 2000⌋).toNat % 2 ^ 32

/-- The raw duration computed from the (truncating) page scan. -/
def oggRawDuration (data : List Nat) : Nat :=
  oggRawDurationOf (scanPages data data.length 0 ⟨0, 48000, 0, false⟩) data.length

/-- The final clamp of the duration to the inclusive range `[1, 300]`. -/
def clampDuration (raw : Nat) : Nat :=
  if raw < 1 then 1 else if raw > 300 then 300 else raw

/-- Embeds `analyzeOggOpus`: reject a buffer not starting with "OggS"; scan
the pages; derive the raw duration from the last non-zero granule position
(`ceil((lastGranule − preSkip) / sampleRate)`, with `uint64` wraparound on
the subtraction and the result read back as a `uint32`) or, when no granule
was seen, from the coarse size estimate `len(data)/2000`; clamp to
`[1, 300]`; synthesize the waveform from the clamped duration. A zero
`sampleRate` divides to `0` in `ℚ` where Go produces an infinity whose
`uint32` value is implementation-defined; both are mapped into `[1, 300]`
by the clamp, which is all any verified property uses. -/
def analyzeOggOpus (sinQ : ℚ → ℚ) (rngOf : ℕ → ℕ → ℚ) (data : List Nat) :
    Except String (Nat × List Nat) :=
  if data.length < 4 ∨ byteSlice data 0 4 ≠ oggSBytes then
    .error "not a valid Ogg file (missing OggS signature)"
  else
    .ok (clampDuration (oggRawDuration data),
      placeholderWaveform sinQ rngOf (clampDuration (oggRawDuration data)))

/-- Checked twin of `opusHeadScan`: `none` when the `sampleRate` read
`pageData[headPos+12 : headPos+16]` would run past `len(pageData)` (the
guard `headPos+12 <= len(pageData)` covers the `preSkip` read only), where
the Go program faults or reads bytes outside the modelled buffer. -/
def opusHeadScanChecked (pageData : List Nat) (st : OggScanState) :
    Option OggScanState :=
  match findSeqIdx opusHeadBytes pageData with
  | none => some st
  | some headPos =>
    if headPos + 12 < pageData.length then
      let hp := headPos + 8
      if hp + 12 ≤ pageData.length then
        if hp + 16 ≤ pageData.length then
          some { st with
            preSkip := leNum (byteSlice pageData (hp + 10) 2),
            sampleRate := leNum (byteSlice pageData (hp + 12) 4),
            foundOpusHead := true }
        else none
      else some st
    else some st

/-- Checked twin of `scanPages`: `none` when the page slice
`data[i : i+pageSize]` of an OpusHead-candidate page (sequence number ≤ 1,
header not yet found) would run past `len(data)` — a segment table whose
payload sum overruns the buffer — or when the OpusHead reads inside that
slice would. There the Go program's behavior depends on the slice capacity
(a bound past `cap` panics; a bound between `len` and `cap` reads bytes
outside the buffer), so no state is produced. On `some` the checked scan
agrees with `scanPages` (`scanPagesChecked_eq`). -/
def scanPagesChecked (data : List Nat) : Nat → Nat → OggScanState → Option OggScanState
  | 0, _, st => some st
  | fuel + 1, i, st =>
    if i + 27 ≥ data.length then some st
    else if byteSlice data i 4 ≠ oggSBytes then scanPagesChecked data fuel (i + 1) st
    else
      let granulePos := leNum (byteSlice data (i + 6) 8)
      let pageSeqNum := leNum (byteSlice data (i + 18) 4)
      let numSegments := data.getD (i + 26) 0
      if i + 27 + numSegments ≥ data.length then some st
      else
        let segmentTable := byteSlice data (i + 27) numSegments
        let pageSize := 27 + numSegments + segmentTable.sum
        if !st.foundOpusHead && decide (pageSeqNum ≤ 1) then
          if i + pageSize ≤ data.length then
            match opusHeadScanChecked (byteSlice data i pageSize) st with
            | none => none
            | some st1 =>
              let st2 := if granulePos ≠ 0 then { st1 with lastGranule := granulePos }
                else st1
              scanPagesChecked data fuel (i + pageSize) st2
          else none
        else
          let st2 := if granulePos ≠ 0 then { st with lastGranule := granulePos } else st
          scanPagesChecked data fuel (i + pageSize) st2

/-- Run-level model of `analyzeOggOpus`: `some r` when the call returns
the result `r`, `none` when the page scan's slicing leaves the buffer and
the program faults (or reads unmodelled bytes) instead of returning. The
signature check precedes any page slicing, so a buffer without the "OggS"
signature always returns its ParseError. -/
def analyzeOggOpusRun (sinQ : ℚ → ℚ) (rngOf : ℕ → ℕ → ℚ) (data : List Nat) :
    Option (Except String (Nat × List Nat)) :=
  if data.length < 4 ∨ byteSlice data 0 4 ≠ oggSBytes then
    some (.error "not a valid Ogg file (missing OggS signature)")
  else
    match scanPagesChecked data data.length 0 ⟨0, 48000, 0, false⟩ with
    | none => none
    | some st =>
      some (.ok (clampDuration (oggRawDurationOf st data.length),
        placeholderWaveform sinQ rngOf (clampDuration (oggRawDurationOf st data.length))))

/-! ### History-sync reconciler (`handleHistorySync`), chat persistence -/

/-- A historical message entry of a sync conversation, reduced to what the
chat-persistence step of `handleHistorySync` inspects: the
`GetMessageTimestamp()` value (`0` encodes an absent timestamp). An entry
that is `none` models `msg == nil || msg.Message == nil`. -/
structure HistoryMessageInfo where
  timestamp : Nat
deriving DecidableEq, Repr

/-- A conversation of a history-sync batch: the optional conversation id
and the message list in payload order. -/
structure HistoryConversation where
  id : Option String
  messages : List (Option HistoryMessageInfo)
deriving DecidableEq, Repr

/-- Embeds the chat-persistence decision of `handleHistorySync` for one
conversation (`parseOk` abstracts `types.ParseJID` succeeding): skip when
the id is absent or unparseable; take `messages[0]`; skip the whole
conversation when that first entry is nil or carries a zero timestamp;
otherwise `StoreChat(chatJID, name, time.Unix(messages[0] timestamp))`.
Returns the `(jid, timestamp)` pair passed to `StoreChat`, or `none` when
the conversation is skipped. -/
def historySyncChatStore (parseOk : String → Bool) (conv : HistoryConversation) :
    Option (String × Nat) :=
  match conv.id with
  | none => none
  | some chatJID =>
    if parseOk chatJID then
      match conv.messages.head? with
      | none => none
      | some none => none
      | some (some info) =>
        if info.timestamp ≠ 0 then some (chatJID, info.timestamp) else none
    else none

/-- Modelled from the spec's words, for comparison with the code: the
timestamps carried by a conversation's messages ("the most recent message's
timestamp found in the conversation" ranges over these). -/
def convTimestamps (conv : HistoryConversation) : List Nat :=
  ((conv.messages.filterMap id).map HistoryMessageInfo.timestamp).filter (· ≠ 0)

/-- Modelled from the spec's words: the most recent (largest) message
timestamp found in the conversation, `0` when none. -/
def mostRecentTimestamp (conv : HistoryConversation) : Nat :=
  (convTimestamps conv).foldr max 0

/-! ### Concrete stores and inputs used to evaluate the verified statements -/

/-- A store with one chat of three messages, for evaluating the context
window queries. -/
def dbC3 : DB :=
  { chats := [⟨"c1@s.whatsapp.net", "Alice", 3⟩],
    messages :=
      [⟨"m1", "c1@s.whatsapp.net", "alice", "hi", 1, false, "", "", "", [], [], [], 0⟩,
       ⟨"m2", "c1@s.whatsapp.net", "me", "yo", 2, true, "", "", "", [], [], [], 0⟩,
       ⟨"m3", "c1@s.whatsapp.net", "alice", "sup", 3, false, "", "", "", [], [], [], 0⟩] }

/-- A store in which the same message id "dup" exists in two different
chats (legal: the primary key is the composite `(id, chat_jid)`). -/
def dbC10 : DB :=
  { chats := [⟨"c1@s.whatsapp.net", "Alice", 5⟩, ⟨"c2@g.us", "Group", 6⟩],
    messages :=
      [⟨"dup", "c1@s.whatsapp.net", "alice", "first", 2, false, "", "", "", [], [], [], 0⟩,
       ⟨"n1", "c1@s.whatsapp.net", "alice", "older", 1, false, "", "", "", [], [], [], 0⟩,
       ⟨"dup", "c2@g.us", "bob", "second", 5, false, "", "", "", [], [], [], 0⟩,
       ⟨"n2", "c2@g.us", "bob", "later", 6, false, "", "", "", [], [], [], 0⟩] }

/-- A concrete stand-in for `time.Parse(time.RFC3339, ·)`: parses exactly
the literal "T100" (to timestamp 100); everything else is unparseable. -/
def parseC6 : String → Option Ts := fun s => if s = "T100" then some 100 else none

/-- A store with one message whose timestamp is exactly 100, the value the
`after` filter parses to. -/
def dbC6 : DB :=
  { chats := [⟨"c1@s.whatsapp.net", "Alice", 100⟩],
    messages :=
      [⟨"m1", "c1@s.whatsapp.net", "alice", "hi", 100, false, "", "", "", [], [], [], 0⟩] }

/-- `ListMessages` parameters with `after = "T100"` and no other filter. -/
def pC6 : ListMessagesParams :=
  { After := "T100", Before := "", SenderPhoneNumber := none, ChatJid := none,
    Query := none, Limit := 10, Page := 0, IncludeContext := false,
    ContextBefore := 5, ContextAfter := 5 }

/-- `ListMessages` parameters with an unparseable non-empty `after`. -/
def pC6bad : ListMessagesParams :=
  { After := "garbage", Before := "", SenderPhoneNumber := none, ChatJid := none,
    Query := none, Limit := 10, Page := 0, IncludeContext := false,
    ContextBefore := 5, ContextAfter := 5 }

/-- A store with one chat and one message, none of which involve the
contact "9990001111" used for the no-row point lookups. -/
def dbC7 : DB :=
  { chats := [⟨"111@s.whatsapp.net", "Bob", 1⟩],
    messages :=
      [⟨"m1", "111@s.whatsapp.net", "111", "hello", 1, false, "", "", "", [], [], [], 0⟩] }

/-- A history-sync conversation whose first message is older (timestamp 5)
than its second (timestamp 10). -/
def convC8a : HistoryConversation :=
  { id := some "123@s.whatsapp.net", messages := [some ⟨5⟩, some ⟨10⟩] }

/-- A history-sync conversation whose first message carries no timestamp
while its second does (timestamp 7). -/
def convC8b : HistoryConversation :=
  { id := some "123@s.whatsapp.net", messages := [some ⟨0⟩, some ⟨7⟩] }

/-- A 30-byte buffer starting with "OggS" whose first page (sequence
number 0) declares one 255-byte segment, so the declared page size
27 + 1 + 255 = 283 overruns the buffer: the bounds guard at the segment
table passes (28 < 30) but the page slice `data[0:283]` leaves the
buffer. -/
def oggOverrun : List Nat :=
  [79, 103, 103, 83, 0, 0,
   0, 0, 0, 0, 0, 0, 0, 0,
   0, 0, 0, 0,
   0, 0, 0, 0,
   0, 0, 0, 0,
   1,
   255,
   0, 0]

/-! ## Supporting lemmas -/

theorem find?_filter_not_append (p : α → Bool) (l : List α) (r : α) (hr : p r = true) :
    (l.filter (fun x => !p x) ++ [r]).find? p = some r := by
  induction l with
  | nil => simp [List.find?, hr]
  | cons x xs ih =>
    by_cases hx : p x = true
    · simp [List.filter_cons, hx, ih]
    · simp only [Bool.not_eq_true] at hx
      simp [List.filter_cons, hx, List.find?_cons, ih]

theorem filter_not_append_self (p : α → Bool) (l : List α) (r : α) (hr : p r = true) :
    ((l.filter (fun x => !p x) ++ [r]).filter (fun x => !p x)) = l.filter (fun x => !p x) := by
  simp [List.filter_append, List.filter_cons, hr]

theorem msgKeyIs_self (r : MessageRow) : msgKeyIs r.id r.chat_jid r = true := by
  simp [msgKeyIs]

theorem StoreMessage_nonempty (db : DB) (id chatJID sender content : String)
    (timestamp : Ts) (isFromMe : Bool) (mediaType filename url : String)
    (mk fs fes : List Nat) (fl : Nat) (h : ¬(content = "" ∧ mediaType = "")) :
    StoreMessage db id chatJID sender content timestamp isFromMe mediaType filename url
        mk fs fes fl
      = { db with
            messages := upsertMessageRow db.messages
              ⟨id, chatJID, sender, content, timestamp, isFromMe, mediaType, filename,
                url, mk, fs, fes, fl⟩ } := by
  simp [StoreMessage, h]

/-! ## Claims about the Repository -/

/-- C1: for every input with empty content and empty media type,
`StoreMessage` returns success without writing any row: on a store
containing no row for `(id, chatJID)`, the store is unchanged and a
subsequent `GetMediaInfo(id, chatJID)` fails with NotFound (`none`). -/
theorem storeMessage_empty_noop (db : DB) (id chatJID sender : String) (timestamp : Ts)
    (isFromMe : Bool) (filename url : String) (mk fs fes : List Nat) (fl : Nat)
    (hnone : ∀ m ∈ db.messages, ¬(m.id = id ∧ m.chat_jid = chatJID)) :
    StoreMessage db id chatJID sender "" timestamp isFromMe "" filename url mk fs fes fl = db
    ∧ GetMediaInfo
        (StoreMessage db id chatJID sender "" timestamp isFromMe "" filename url mk fs fes fl)
        id chatJID = none := by
  have hdb : StoreMessage db id chatJID sender "" timestamp isFromMe "" filename url mk fs fes fl
      = db := by
    simp [StoreMessage]
  refine ⟨hdb, ?_⟩
  rw [hdb]
  have hfind : findMessage db id chatJID = none := by
    unfold findMessage
    rw [List.find?_eq_none]
    intro m hm
    have := hnone m hm
    simp [msgKeyIs]
    intro h1 h2
    exact this ⟨h1, h2⟩
  simp [GetMediaInfo, hfind]

/-- Witness for C1 at a concrete empty store. -/
theorem storeMessage_empty_noop_witness :
    (∀ m ∈ (⟨[], []⟩ : DB).messages, ¬(m.id = "m1" ∧ m.chat_jid = "c1")) ∧
    (StoreMessage ⟨[], []⟩ "m1" "c1" "s" "" 7 false "" "" "" [] [] [] 0 = ⟨[], []⟩
      ∧ GetMediaInfo (StoreMessage ⟨[], []⟩ "m1" "c1" "s" "" 7 false "" "" "" [] [] [] 0)
          "m1" "c1" = none) :=
  ⟨by simp, storeMessage_empty_noop ⟨[], []⟩ "m1" "c1" "s" 7 false "" "" [] [] [] 0
    (by simp)⟩

/-- C2: `StoreMessage` is an idempotent, last-write-wins upsert keyed by
`(id, chatJID)`: after two stores of the same key with different non-empty
content, the key's row holds exactly the second call's values on every
column, and storing the same values twice leaves the store identical to
storing them once. -/
theorem storeMessage_upsert_last_write_wins (db : DB) (id chatJID : String)
    (s1 c1 : String) (t1 : Ts) (f1 : Bool) (mt1 fn1 u1 : String)
    (k1 sh1 e1 : List Nat) (l1 : Nat)
    (s2 c2 : String) (t2 : Ts) (f2 : Bool) (mt2 fn2 u2 : String)
    (k2 sh2 e2 : List Nat) (l2 : Nat)
    (hc1 : c1 ≠ "") (hc2 : c2 ≠ "") (hne : c1 ≠ c2) :
    findMessage
        (StoreMessage (StoreMessage db id chatJID s1 c1 t1 f1 mt1 fn1 u1 k1 sh1 e1 l1)
          id chatJID s2 c2 t2 f2 mt2 fn2 u2 k2 sh2 e2 l2) id chatJID
      = some ⟨id, chatJID, s2, c2, t2, f2, mt2, fn2, u2, k2, sh2, e2, l2⟩
    ∧ StoreMessage (StoreMessage db id chatJID s2 c2 t2 f2 mt2 fn2 u2 k2 sh2 e2 l2)
          id chatJID s2 c2 t2 f2 mt2 fn2 u2 k2 sh2 e2 l2
      = StoreMessage db id chatJID s2 c2 t2 f2 mt2 fn2 u2 k2 sh2 e2 l2 := by
  have hng : ¬(c2 = "" ∧ (mt2 : String) = "") := fun hcon => hc2 hcon.1
  constructor
  · rw [StoreMessage_nonempty _ _ _ _ _ _ _ _ _ _ _ _ _ _ hng]
    unfold findMessage upsertMessageRow
    exact find?_filter_not_append _ _ _
      (msgKeyIs_self ⟨id, chatJID, s2, c2, t2, f2, mt2, fn2, u2, k2, sh2, e2, l2⟩)
  · rw [StoreMessage_nonempty db _ _ _ _ _ _ _ _ _ _ _ _ _ hng,
      StoreMessage_nonempty _ _ _ _ _ _ _ _ _ _ _ _ _ _ hng]
    refine congrArg _ ?_
    show upsertMessageRow (upsertMessageRow db.messages _) _ = upsertMessageRow db.messages _
    unfold upsertMessageRow
    rw [filter_not_append_self _ _ _
      (msgKeyIs_self ⟨id, chatJID, s2, c2, t2, f2, mt2, fn2, u2, k2, sh2, e2, l2⟩)]

/-- Witness for C2 at a concrete store and two concrete writes. -/
theorem storeMessage_upsert_last_write_wins_witness :
    ("a" ≠ "" ∧ "b" ≠ "" ∧ "a" ≠ "b") ∧
    (findMessage
        (StoreMessage (StoreMessage ⟨[], []⟩ "m" "c" "s1" "a" 1 false "" "f1" "u1" [] [] [] 1)
          "m" "c" "s2" "b" 2 true "" "f2" "u2" [] [] [] 2) "m" "c"
      = some ⟨"m", "c", "s2", "b", 2, true, "", "f2", "u2", [], [], [], 2⟩
    ∧ StoreMessage (StoreMessage ⟨[], []⟩ "m" "c" "s2" "b" 2 true "" "f2" "u2" [] [] [] 2)
          "m" "c" "s2" "b" 2 true "" "f2" "u2" [] [] [] 2
      = StoreMessage ⟨[], []⟩ "m" "c" "s2" "b" 2 true "" "f2" "u2" [] [] [] 2) :=
  ⟨⟨by decide, by decide, by decide⟩,
    storeMessage_upsert_last_write_wins ⟨[], []⟩ "m" "c" "s1" "a" 1 false "" "f1" "u1"
      [] [] [] 1 "s2" "b" 2 true "" "f2" "u2" [] [] [] 2
      (by decide) (by decide) (by decide)⟩

/-! ## Lemmas about the context windows -/

theorem lookupChat_jid (db : DB) (jid : String) (c : ChatRow)
    (h : lookupChat db jid = some c) : c.jid = jid := by
  have := List.find?_some h
  simpa using this

theorem lookupChat_of_fk (db : DB) (hfk : FKInv db) (m : MessageRow)
    (hm : m ∈ db.messages) : ∃ c, lookupChat db m.chat_jid = some c := by
  rcases hfk m hm with ⟨c, hc, hjid⟩
  cases h : lookupChat db m.chat_jid with
  | some c2 => exact ⟨c2, rfl⟩
  | none =>
    exfalso
    rw [lookupChat, List.find?_eq_none] at h
    have := h c hc
    simp [hjid] at this

theorem mem_joinAll_of (db : DB) (m : MessageRow) (c : ChatRow)
    (hm : m ∈ db.messages) (hc : lookupChat db m.chat_jid = some c) :
    (m, c) ∈ joinAll db := by
  rw [mem_joinAll]
  exact ⟨hm, hc⟩

theorem filterMap_join_filter (db : DB) (ms : List MessageRow) (cj : String) (c : ChatRow)
    (hc : lookupChat db cj = some c) (p : MessageRow → Bool) :
    ((ms.filterMap (fun m => (lookupChat db m.chat_jid).map (fun ch => (m, ch)))).filter
        (fun x => x.1.chat_jid == cj && p x.1))
      = (ms.filter (fun m => m.chat_jid == cj && p m)).map (fun m => (m, c)) := by
  induction ms with
  | nil => rfl
  | cons m ms ih =>
    by_cases hm : m.chat_jid = cj
    · have hl : lookupChat db m.chat_jid = some c := by rw [hm]; exact hc
      rw [List.filterMap_cons_some (by rw [hl]; rfl)]
      rw [List.filter_cons, List.filter_cons]
      by_cases hp : p m = true
      · simp only [hm, beq_self_eq_true, Bool.true_and, hp, if_true]
        rw [List.map_cons, ih]
      · simp only [hm, beq_self_eq_true, Bool.true_and, hp, Bool.false_eq_true, if_false]
        exact ih
    · cases hl : lookupChat db m.chat_jid with
      | none =>
        rw [List.filterMap_cons_none (by rw [hl]; rfl), List.filter_cons]
        have hbeq : (m.chat_jid == cj) = false := by simpa using hm
        simp only [hbeq, Bool.false_and, Bool.false_eq_true, if_false]
        exact ih
      | some ch =>
        rw [List.filterMap_cons_some (by rw [hl]; rfl)]
        rw [List.filter_cons, List.filter_cons]
        have hbeq : (m.chat_jid == cj) = false := by simpa using hm
        simp only [hbeq, Bool.false_and, Bool.false_eq_true, if_false]
        exact ih

/-- Number of messages of chat `chatJid` with timestamp strictly below
`ts` — the chat's eligible neighbors for a before window. -/
def eligibleBeforeCount (db : DB) (chatJid : String) (ts : Ts) : Nat :=
  (db.messages.filter (fun x => x.chat_jid == chatJid && decide (x.timestamp < ts))).length

/-- Number of messages of chat `chatJid` with timestamp strictly above
`ts` — the chat's eligible neighbors for an after window. -/
def eligibleAfterCount (db : DB) (chatJid : String) (ts : Ts) : Nat :=
  (db.messages.filter (fun x => x.chat_jid == chatJid && decide (ts < x.timestamp))).length

theorem length_contextBeforeRows (db : DB) (m : MessageRow) (n : Nat) (c : ChatRow)
    (hc : lookupChat db m.chat_jid = some c) :
    (contextBeforeRows db m n).length
      = min n (eligibleBeforeCount db m.chat_jid m.timestamp) := by
  unfold contextBeforeRows eligibleBeforeCount
  rw [List.length_map, List.length_take, length_sortBy]
  rw [show joinAll db
      = db.messages.filterMap (fun mm => (lookupChat db mm.chat_jid).map (fun ch => (mm, ch)))
    from rfl]
  rw [filterMap_join_filter db db.messages m.chat_jid c hc
    (fun mm => decide (mm.timestamp < m.timestamp))]
  rw [List.length_map]

theorem length_contextAfterRows (db : DB) (m : MessageRow) (n : Nat) (c : ChatRow)
    (hc : lookupChat db m.chat_jid = some c) :
    (contextAfterRows db m n).length
      = min n (eligibleAfterCount db m.chat_jid m.timestamp) := by
  unfold contextAfterRows eligibleAfterCount
  rw [List.length_map, List.length_take, length_sortBy]
  rw [show joinAll db
      = db.messages.filterMap (fun mm => (lookupChat db mm.chat_jid).map (fun ch => (mm, ch)))
    from rfl]
  rw [filterMap_join_filter db db.messages m.chat_jid c hc
    (fun mm => decide (m.timestamp < mm.timestamp))]
  rw [List.length_map]

theorem mem_contextBeforeRows (db : DB) (m : MessageRow) (n : Nat) (b : MessageInteraction)
    (hb : b ∈ contextBeforeRows db m n) :
    b.chat_jid = m.chat_jid ∧ b.timestamp < m.timestamp := by
  unfold contextBeforeRows at hb
  rcases List.mem_map.mp hb with ⟨x, hx, rfl⟩
  have hx2 := List.take_subset _ _ hx
  have hx3 := (mem_sortBy _ _ _).mp hx2
  rcases List.mem_filter.mp hx3 with ⟨hjoin, hcond⟩
  simp only [Bool.and_eq_true, beq_iff_eq, decide_eq_true_eq] at hcond
  have hjid : x.2.jid = x.1.chat_jid :=
    lookupChat_jid db _ _ ((mem_joinAll db x).mp hjoin).2
  exact ⟨by simpa [mkInteraction, hjid] using hcond.1, hcond.2⟩

theorem mem_contextAfterRows (db : DB) (m : MessageRow) (n : Nat) (a : MessageInteraction)
    (ha : a ∈ contextAfterRows db m n) :
    a.chat_jid = m.chat_jid ∧ m.timestamp < a.timestamp := by
  unfold contextAfterRows at ha
  rcases List.mem_map.mp ha with ⟨x, hx, rfl⟩
  have hx2 := List.take_subset _ _ hx
  have hx3 := (mem_sortBy _ _ _).mp hx2
  rcases List.mem_filter.mp hx3 with ⟨hjoin, hcond⟩
  simp only [Bool.and_eq_true, beq_iff_eq, decide_eq_true_eq] at hcond
  have hjid : x.2.jid = x.1.chat_jid :=
    lookupChat_jid db _ _ ((mem_joinAll db x).mp hjoin).2
  exact ⟨by simpa [mkInteraction, hjid] using hcond.1, hcond.2⟩

theorem tsDescLe_total (a b : MessageRow × ChatRow) :
    tsDescLe a b = true ∨ tsDescLe b a = true := by
  simp [tsDescLe]
  exact Int.le_total _ _

theorem tsDescLe_trans (a b c : MessageRow × ChatRow)
    (h1 : tsDescLe a b = true) (h2 : tsDescLe b c = true) : tsDescLe a c = true := by
  simp [tsDescLe] at *
  exact le_trans h1 h2

theorem tsAscLe_total (a b : MessageRow × ChatRow) :
    tsAscLe a b = true ∨ tsAscLe b a = true := by
  simp [tsAscLe]
  exact Int.le_total _ _

theorem tsAscLe_trans (a b c : MessageRow × ChatRow)
    (h1 : tsAscLe a b = true) (h2 : tsAscLe b c = true) : tsAscLe a c = true := by
  simp [tsAscLe] at *
  exact le_trans h2 h1

theorem pairwise_contextBeforeRows (db : DB) (m : MessageRow) (n : Nat) :
    (contextBeforeRows db m n).Pairwise (fun a b => b.timestamp ≤ a.timestamp) := by
  unfold contextBeforeRows
  rw [List.pairwise_map]
  have hs := pairwise_sortBy tsDescLe tsDescLe_total tsDescLe_trans
    ((joinAll db).filter
      (fun x => x.1.chat_jid == m.chat_jid && decide (x.1.timestamp < m.timestamp)))
  have ht := hs.sublist (List.take_sublist n _)
  exact ht.imp (by intro a b h; simpa [tsDescLe, mkInteraction] using h)

theorem pairwise_contextAfterRows (db : DB) (m : MessageRow) (n : Nat) :
    (contextAfterRows db m n).Pairwise (fun a b => a.timestamp ≤ b.timestamp) := by
  unfold contextAfterRows
  rw [List.pairwise_map]
  have hs := pairwise_sortBy tsAscLe tsAscLe_total tsAscLe_trans
    ((joinAll db).filter
      (fun x => x.1.chat_jid == m.chat_jid && decide (m.timestamp < x.1.timestamp)))
  have ht := hs.sublist (List.take_sublist n _)
  exact ht.imp (by intro a b h; simpa [tsAscLe, mkInteraction] using h)

theorem gmc_find?_of_exists (db : DB) (messageID : String)
    (hfk : FKInv db) (hex : ∃ m ∈ db.messages, m.id = messageID) :
    ∃ mc, (joinAll db).find? (fun x => x.1.id == messageID) = some mc := by
  rcases hex with ⟨m, hm, hid⟩
  rcases lookupChat_of_fk db hfk m hm with ⟨c, hc⟩
  cases h : (joinAll db).find? (fun x => x.1.id == messageID) with
  | some mc => exact ⟨mc, rfl⟩
  | none =>
    exfalso
    rw [List.find?_eq_none] at h
    have := h (m, c) (mem_joinAll_of db m c hm hc)
    simp [hid] at this

theorem mkInteraction_chat_jid (m : MessageRow) (c : ChatRow) :
    (mkInteraction m c).chat_jid = c.jid := rfl

theorem mkInteraction_timestamp (m : MessageRow) (c : ChatRow) :
    (mkInteraction m c).timestamp = m.timestamp := rfl

theorem mkInteraction_id (m : MessageRow) (c : ChatRow) :
    (mkInteraction m c).id = m.id := rfl

/-! ## Claims about the message-context query -/

/-- C3: for every stored anchor message and non-negative counts `N`, `M`,
`GetMessageContext` fails with NotFound exactly when no message has the id
(under the schema's foreign-key invariant); on success it returns exactly
`min N (eligible before-neighbors)` before-entries and
`min M (eligible after-neighbors)` after-entries — at most `N`/`M`, fewer
only when the chat has fewer eligible neighbors; every before-entry is in
the anchor's chat with strictly smaller timestamp, ordered timestamp
descending (nearest-to-anchor first); every after-entry is in the anchor's
chat with strictly greater timestamp, ordered timestamp ascending. -/
theorem getMessageContext_window_spec (db : DB) (messageID : String) (N M : Nat)
    (hfk : FKInv db) :
    ((GetMessageContext db messageID N M).isOk = true ↔ ∃ m ∈ db.messages, m.id = messageID)
    ∧ ∀ ctx, GetMessageContext db messageID N M = .ok ctx →
        ctx.before.length
            = min N (eligibleBeforeCount db ctx.message.chat_jid ctx.message.timestamp)
        ∧ ctx.after.length
            = min M (eligibleAfterCount db ctx.message.chat_jid ctx.message.timestamp)
        ∧ (∀ b ∈ ctx.before,
            b.chat_jid = ctx.message.chat_jid ∧ b.timestamp < ctx.message.timestamp)
        ∧ ctx.before.Pairwise (fun a b => b.timestamp ≤ a.timestamp)
        ∧ (∀ a ∈ ctx.after,
            a.chat_jid = ctx.message.chat_jid ∧ ctx.message.timestamp < a.timestamp)
        ∧ ctx.after.Pairwise (fun a b => a.timestamp ≤ b.timestamp) := by
  cases hfind : (joinAll db).find? (fun x => x.1.id == messageID) with
  | none =>
    have hGMC : GetMessageContext db messageID N M
        = .error ("message not found: " ++ messageID) := by
      unfold GetMessageContext
      rw [hfind]
    constructor
    · rw [hGMC]
      constructor
      · intro h
        simp [Except.isOk, Except.toBool] at h
      · rintro ⟨m, hm, hid⟩
        exfalso
        rcases lookupChat_of_fk db hfk m hm with ⟨c, hc⟩
        rw [List.find?_eq_none] at hfind
        have := hfind (m, c) (mem_joinAll_of db m c hm hc)
        simp [hid] at this
    · intro ctx hctx
      rw [hGMC] at hctx
      exact absurd hctx (by simp)
  | some mc =>
    have hGMC : GetMessageContext db messageID N M
        = .ok ⟨mkInteraction mc.1 mc.2, contextBeforeRows db mc.1 N,
            contextAfterRows db mc.1 M⟩ := by
      unfold GetMessageContext
      rw [hfind]
    have hmem : mc ∈ joinAll db := List.mem_of_find?_eq_some hfind
    have hid : mc.1.id = messageID := by
      have := List.find?_some hfind
      simpa using this
    have hc : lookupChat db mc.1.chat_jid = some mc.2 := ((mem_joinAll db mc).mp hmem).2
    have hjid : mc.2.jid = mc.1.chat_jid := lookupChat_jid db _ _ hc
    constructor
    · rw [hGMC]
      constructor
      · intro _
        exact ⟨mc.1, ((mem_joinAll db mc).mp hmem).1, hid⟩
      · intro _
        rfl
    · intro ctx hctx
      rw [hGMC] at hctx
      injection hctx with hctx
      subst hctx
      refine ⟨?_, ?_, ?_, ?_, ?_, ?_⟩
      · simp only [mkInteraction_chat_jid, mkInteraction_timestamp, hjid]
        exact length_contextBeforeRows db mc.1 N mc.2 hc
      · simp only [mkInteraction_chat_jid, mkInteraction_timestamp, hjid]
        exact length_contextAfterRows db mc.1 M mc.2 hc
      · intro b hb
        have := mem_contextBeforeRows db mc.1 N b hb
        simpa only [mkInteraction_chat_jid, mkInteraction_timestamp, hjid] using this
      · exact pairwise_contextBeforeRows db mc.1 N
      · intro a ha
        have := mem_contextAfterRows db mc.1 M a ha
        simpa only [mkInteraction_chat_jid, mkInteraction_timestamp, hjid] using this
      · exact pairwise_contextAfterRows db mc.1 M

/-- Witness for C3 at the concrete three-message store. -/
theorem getMessageContext_window_spec_witness :
    FKInv dbC3 ∧
    (((GetMessageContext dbC3 "m2" 1 1).isOk = true ↔ ∃ m ∈ dbC3.messages, m.id = "m2")
     ∧ ∀ ctx, GetMessageContext dbC3 "m2" 1 1 = .ok ctx →
        ctx.before.length
            = min 1 (eligibleBeforeCount dbC3 ctx.message.chat_jid ctx.message.timestamp)
        ∧ ctx.after.length
            = min 1 (eligibleAfterCount dbC3 ctx.message.chat_jid ctx.message.timestamp)
        ∧ (∀ b ∈ ctx.before,
            b.chat_jid = ctx.message.chat_jid ∧ b.timestamp < ctx.message.timestamp)
        ∧ ctx.before.Pairwise (fun a b => b.timestamp ≤ a.timestamp)
        ∧ (∀ a ∈ ctx.after,
            a.chat_jid = ctx.message.chat_jid ∧ ctx.message.timestamp < a.timestamp)
        ∧ ctx.after.Pairwise (fun a b => a.timestamp ≤ b.timestamp)) :=
  ⟨by show ∀ m ∈ dbC3.messages, ∃ c ∈ dbC3.chats, c.jid = m.chat_jid
      decide,
    getMessageContext_window_spec dbC3 "m2" 1 1
      (by show ∀ m ∈ dbC3.messages, ∃ c ∈ dbC3.chats, c.jid = m.chat_jid
          decide)⟩

/-- C10: `GetMessageContext` selects its anchor by message id alone, with
no chat identifier in the lookup: even when the same id exists in several
chats, the call succeeds (under the foreign-key invariant), the anchor is
one of the stored rows with that id — the one the database yields first —
and both context windows are drawn from that anchor's chat: every
before- and after-entry carries the returned anchor's `chat_jid`. -/
theorem getMessageContext_anchor_by_id (db : DB) (messageID : String) (N M : Nat)
    (hfk : FKInv db) (hex : ∃ m ∈ db.messages, m.id = messageID) :
    ∃ ctx, GetMessageContext db messageID N M = .ok ctx
      ∧ ctx.message.id = messageID
      ∧ (∃ m ∈ db.messages, m.id = messageID ∧ m.chat_jid = ctx.message.chat_jid)
      ∧ (∀ mc, (joinAll db).find? (fun x => x.1.id == messageID) = some mc →
          ctx.message.chat_jid = mc.1.chat_jid)
      ∧ (∀ b ∈ ctx.before, b.chat_jid = ctx.message.chat_jid)
      ∧ (∀ a ∈ ctx.after, a.chat_jid = ctx.message.chat_jid) := by
  rcases gmc_find?_of_exists db messageID hfk hex with ⟨mc, hfind⟩
  have hGMC : GetMessageContext db messageID N M
      = .ok ⟨mkInteraction mc.1 mc.2, contextBeforeRows db mc.1 N,
          contextAfterRows db mc.1 M⟩ := by
    unfold GetMessageContext
    rw [hfind]
  have hmem : mc ∈ joinAll db := List.mem_of_find?_eq_some hfind
  have hid : mc.1.id = messageID := by
    have := List.find?_some hfind
    simpa using this
  have hc : lookupChat db mc.1.chat_jid = some mc.2 := ((mem_joinAll db mc).mp hmem).2
  have hjid : mc.2.jid = mc.1.chat_jid := lookupChat_jid db _ _ hc
  refine ⟨_, hGMC, ?_, ?_, ?_, ?_, ?_⟩
  · simpa only [mkInteraction_id] using hid
  · exact ⟨mc.1, ((mem_joinAll db mc).mp hmem).1, hid,
      by simp only [mkInteraction_chat_jid, hjid]⟩
  · intro mc2 hfind2
    rw [hfind] at hfind2
    injection hfind2 with hfind2
    subst hfind2
    simp only [mkInteraction_chat_jid, hjid]
  · intro b hb
    have := (mem_contextBeforeRows db mc.1 N b hb).1
    simpa only [mkInteraction_chat_jid, hjid] using this
  · intro a ha
    have := (mem_contextAfterRows db mc.1 M a ha).1
    simpa only [mkInteraction_chat_jid, hjid] using this

/-- Witness for C10 at a store holding the id "dup" in two chats. -/
theorem getMessageContext_anchor_by_id_witness :
    (FKInv dbC10 ∧ ∃ m ∈ dbC10.messages, m.id = "dup") ∧
    (∃ ctx, GetMessageContext dbC10 "dup" 2 2 = .ok ctx
      ∧ ctx.message.id = "dup"
      ∧ (∃ m ∈ dbC10.messages, m.id = "dup" ∧ m.chat_jid = ctx.message.chat_jid)
      ∧ (∀ mc, (joinAll dbC10).find? (fun x => x.1.id == "dup") = some mc →
          ctx.message.chat_jid = mc.1.chat_jid)
      ∧ (∀ b ∈ ctx.before, b.chat_jid = ctx.message.chat_jid)
      ∧ (∀ a ∈ ctx.after, a.chat_jid = ctx.message.chat_jid)) :=
  ⟨⟨by show ∀ m ∈ dbC10.messages, ∃ c ∈ dbC10.chats, c.jid = m.chat_jid
       decide,
    by decide⟩,
    getMessageContext_anchor_by_id dbC10 "dup" 2 2
      (by show ∀ m ∈ dbC10.messages, ∃ c ∈ dbC10.chats, c.jid = m.chat_jid
          decide)
      (by decide)⟩

/-! ## Claims about the container analyzer -/

theorem clampDuration_bounds (raw : Nat) :
    1 ≤ clampDuration raw ∧ clampDuration raw ≤ 300 := by
  unfold clampDuration
  split_ifs <;> omega

theorem placeholderWaveform_length (sinQ : ℚ → ℚ) (rngOf : ℕ → ℕ → ℚ) (d : ℕ) :
    (placeholderWaveform sinQ rngOf d).length = 64 := by
  simp [placeholderWaveform]

theorem placeholderWaveform_le (sinQ : ℚ → ℚ) (rngOf : ℕ → ℕ → ℚ) (d : ℕ) :
    ∀ b ∈ placeholderWaveform sinQ rngOf d, b ≤ 100 := by
  intro b hb
  unfold placeholderWaveform at hb
  rcases List.mem_map.mp hb with ⟨i, hi, rfl⟩
  dsimp only
  split_ifs with h0 h100
  · simp
  · simp
  · push_neg at h100
    refine Int.toNat_le.mpr ?_
    calc ⌊_⌋ ≤ ⌊(100 : ℚ)⌋ := Int.floor_le_floor h100
    _ = (100 : ℤ) := by
        norm_num
    _ ≤ ((100 : ℕ) : ℤ) := by norm_num

theorem analyzeOggOpus_ok_waveform (sinQ : ℚ → ℚ) (rngOf : ℕ → ℕ → ℚ)
    (data : List Nat) (d : Nat) (w : List Nat)
    (h : analyzeOggOpus sinQ rngOf data = .ok (d, w)) :
    w = placeholderWaveform sinQ rngOf d := by
  unfold analyzeOggOpus at h
  split at h
  · exact absurd h (by simp)
  · injection h with h
    injection h with h1 h2
    subst h1
    exact h2.symm

theorem opusHeadScanChecked_eq (pageData : List Nat) (st st2 : OggScanState)
    (h : opusHeadScanChecked pageData st = some st2) :
    opusHeadScan pageData st = st2 := by
  unfold opusHeadScanChecked at h
  unfold opusHeadScan
  cases hf : findSeqIdx opusHeadBytes pageData with
  | none =>
    simp only [hf, Option.some.injEq] at h ⊢
    exact h
  | some headPos =>
    simp only [hf] at h ⊢
    by_cases h12 : headPos + 12 < pageData.length
    · rw [if_pos h12] at h ⊢
      by_cases hA : headPos + 8 + 12 ≤ pageData.length
      · rw [if_pos hA] at h ⊢
        by_cases hB : headPos + 8 + 16 ≤ pageData.length
        · rw [if_pos hB] at h
          injection h
        · rw [if_neg hB] at h
          exact absurd h (by simp)
      · rw [if_neg hA] at h ⊢
        injection h
    · rw [if_neg h12] at h ⊢
      injection h

theorem scanPagesChecked_eq (data : List Nat) :
    ∀ (fuel i : Nat) (st st2 : OggScanState),
      scanPagesChecked data fuel i st = some st2 →
      scanPages data fuel i st = st2 := by
  intro fuel
  induction fuel with
  | zero =>
    intro i st st2 h
    unfold scanPagesChecked at h
    unfold scanPages
    injection h
  | succ n ih =>
    intro i st st2 h
    unfold scanPagesChecked at h
    unfold scanPages
    by_cases h27 : i + 27 ≥ data.length
    · rw [if_pos h27] at h ⊢
      injection h
    · rw [if_neg h27] at h ⊢
      by_cases hsg : byteSlice data i 4 ≠ oggSBytes
      · rw [if_pos hsg] at h ⊢
        exact ih _ _ _ h
      · rw [if_neg hsg] at h ⊢
        simp only [] at h ⊢
        by_cases hseg : i + 27 + data.getD (i + 26) 0 ≥ data.length
        · rw [if_pos hseg] at h ⊢
          injection h
        · rw [if_neg hseg] at h ⊢
          by_cases hop : (!st.foundOpusHead
              && decide (leNum (byteSlice data (i + 18) 4) ≤ 1)) = true
          · rw [if_pos hop] at h ⊢
            by_cases hbound : i + (27 + data.getD (i + 26) 0
                + (byteSlice data (i + 27) (data.getD (i + 26) 0)).sum) ≤ data.length
            · rw [if_pos hbound] at h
              cases hos : opusHeadScanChecked
                  (byteSlice data i (27 + data.getD (i + 26) 0
                    + (byteSlice data (i + 27) (data.getD (i + 26) 0)).sum)) st with
              | none =>
                rw [hos] at h
                exact Option.noConfusion h
              | some st1 =>
                simp only [hos] at h
                rw [opusHeadScanChecked_eq _ _ _ hos]
                exact ih _ _ _ h
            · rw [if_neg hbound] at h
              exact absurd h (by simp)
          · rw [if_neg hop] at h ⊢
            exact ih _ _ _ h

/-- C4 (amended): for every byte buffer accepted by the container analyzer
(starting with the "OggS" signature) on which the call returns a result —
equivalently, whose page scan stays within the buffer — the analysis
succeeds with a duration in the inclusive range `[1, 300]` and a waveform
of exactly 64 bytes with every byte in `[0, 100]`; and every returned
result whatsoever satisfies those ranges, regardless of what granule
position or OpusHead header the scan found and for every value of the
abstracted `math.Sin` and seeded random stream. On accepted buffers whose
declared page payloads overrun the buffer no result is returned (the slice
expression faults), so the original unconditional-success claim fails. -/
theorem analyzeOggOpus_output_ranges (sinQ : ℚ → ℚ) (rngOf : ℕ → ℕ → ℚ)
    (data : List Nat) :
    ((4 ≤ data.length ∧ byteSlice data 0 4 = oggSBytes) →
      ∀ st, scanPagesChecked data data.length 0 ⟨0, 48000, 0, false⟩ = some st →
        ∃ d w, analyzeOggOpusRun sinQ rngOf data = some (.ok (d, w))
          ∧ 1 ≤ d ∧ d ≤ 300 ∧ w.length = 64 ∧ ∀ b ∈ w, b ≤ 100)
    ∧ (∀ d w, analyzeOggOpusRun sinQ rngOf data = some (.ok (d, w)) →
        1 ≤ d ∧ d ≤ 300 ∧ w.length = 64 ∧ ∀ b ∈ w, b ≤ 100) := by
  constructor
  · rintro ⟨hlen, hsig⟩ st hst
    have hcond : ¬(data.length < 4 ∨ byteSlice data 0 4 ≠ oggSBytes) := by
      push_neg
      exact ⟨by omega, hsig⟩
    refine ⟨clampDuration (oggRawDurationOf st data.length),
      placeholderWaveform sinQ rngOf (clampDuration (oggRawDurationOf st data.length)),
      ?_, (clampDuration_bounds _).1, (clampDuration_bounds _).2,
      placeholderWaveform_length _ _ _, placeholderWaveform_le _ _ _⟩
    unfold analyzeOggOpusRun
    rw [if_neg hcond]
    simp only [hst]
  · intro d w h
    unfold analyzeOggOpusRun at h
    by_cases hcond : data.length < 4 ∨ byteSlice data 0 4 ≠ oggSBytes
    · rw [if_pos hcond] at h
      exact absurd h (by simp)
    · rw [if_neg hcond] at h
      cases hst : scanPagesChecked data data.length 0 ⟨0, 48000, 0, false⟩ with
      | none =>
        simp [hst] at h
      | some st =>
        simp only [hst, Option.some.injEq, Except.ok.injEq, Prod.mk.injEq] at h
        obtain ⟨h1, h2⟩ := h
        subst h1
        subst h2
        exact ⟨(clampDuration_bounds _).1, (clampDuration_bounds _).2,
          placeholderWaveform_length _ _ _, placeholderWaveform_le _ _ _⟩

/-- Witness for C4's amended statement at the 4-byte buffer "OggS", whose
scan stays in bounds (it stops at once: `0 + 27 ≥ 4`). -/
theorem analyzeOggOpus_output_ranges_witness :
    ((4 ≤ ([79, 103, 103, 83] : List Nat).length
        ∧ byteSlice [79, 103, 103, 83] 0 4 = oggSBytes)
      ∧ scanPagesChecked [79, 103, 103, 83] (List.length [79, 103, 103, 83]) 0
          ⟨0, 48000, 0, false⟩ = some ⟨0, 48000, 0, false⟩) ∧
    (∃ d w, analyzeOggOpusRun (fun _ => 0) (fun _ _ => 0) [79, 103, 103, 83]
        = some (.ok (d, w))
      ∧ 1 ≤ d ∧ d ≤ 300 ∧ w.length = 64 ∧ ∀ b ∈ w, b ≤ 100) :=
  ⟨⟨⟨by decide, by decide⟩, by rfl⟩,
    (analyzeOggOpus_output_ranges (fun _ => 0) (fun _ _ => 0) [79, 103, 103, 83]).1
      ⟨by decide, by decide⟩ ⟨0, 48000, 0, false⟩ (by rfl)⟩

/-- Counterexample for C4 as stated: `oggOverrun` starts with "OggS", so
the analyzer accepts it, yet no duration or waveform is returned: its
first page (sequence number 0) declares a 255-byte payload, the bounds
guard covers only the segment table (28 < 30), and the page slice
`data[0:283]` leaves the 30-byte buffer — in Go a capacity-dependent
runtime fault at the slice expression, modelled `none`, not a return. -/
theorem analyzeOggOpus_overrun_counterexample :
    4 ≤ oggOverrun.length ∧ byteSlice oggOverrun 0 4 = oggSBytes
    ∧ analyzeOggOpusRun (fun _ => 0) (fun _ _ => 0) oggOverrun = none :=
  ⟨by decide, by decide, by rfl⟩

/-- C5 (amended): a ParseError — returning no duration and no waveform —
is the result exactly when the buffer does not start with the 4-byte
"OggS" signature at offset 0 (including buffers shorter than 4 bytes). An
"OggS"-prefixed buffer never yields an error return: when its page scan
stays within the buffer, a malformed or truncated page table merely ends
the scan and the analyzer succeeds via the size-based estimate; when a
declared page payload overruns the buffer, the slice expression faults
without returning anything (modelled `none`) — still not a ParseError. -/
theorem analyzeOggOpusRun_error_iff_missing_signature (sinQ : ℚ → ℚ)
    (rngOf : ℕ → ℕ → ℚ) (data : List Nat) :
    (∃ e, analyzeOggOpusRun sinQ rngOf data = some (.error e))
      ↔ (data.length < 4 ∨ byteSlice data 0 4 ≠ oggSBytes) := by
  unfold analyzeOggOpusRun
  by_cases h : data.length < 4 ∨ byteSlice data 0 4 ≠ oggSBytes
  · rw [if_pos h]
    exact ⟨fun _ => h, fun _ => ⟨_, rfl⟩⟩
  · rw [if_neg h]
    constructor
    · rintro ⟨e, he⟩
      exfalso
      cases hst : scanPagesChecked data data.length 0 ⟨0, 48000, 0, false⟩ with
      | none => simp [hst] at he
      | some st => simp [hst] at he
    · intro hcon
      exact absurd hcon h

theorem scanPages_stop (data : List Nat) (fuel i : Nat) (st : OggScanState)
    (h : data.length ≤ i + 27) : scanPages data fuel i st = st := by
  cases fuel with
  | zero => rfl
  | succ n =>
    simp only [scanPages]
    rw [if_pos (by omega)]

theorem oggRawDuration_len4 : oggRawDuration [79, 103, 103, 83] = 0 := by
  unfold oggRawDuration oggRawDurationOf
  rw [scanPages_stop _ _ _ _ (by decide)]
  norm_num

theorem oggRawDuration_len5 : oggRawDuration [79, 103, 103, 83, 0] = 0 := by
  unfold oggRawDuration oggRawDurationOf
  rw [scanPages_stop _ _ _ _ (by decide)]
  norm_num

theorem analyzeOggOpus_oggS4_eval (sinQ : ℚ → ℚ) (rngOf : ℕ → ℕ → ℚ) :
    analyzeOggOpus sinQ rngOf [79, 103, 103, 83]
      = .ok (1, placeholderWaveform sinQ rngOf 1) := by
  unfold analyzeOggOpus
  rw [if_neg (by decide)]
  rw [oggRawDuration_len4]
  rfl

theorem analyzeOggOpus_oggS5_eval (sinQ : ℚ → ℚ) (rngOf : ℕ → ℕ → ℚ) :
    analyzeOggOpus sinQ rngOf [79, 103, 103, 83, 0]
      = .ok (1, placeholderWaveform sinQ rngOf 1) := by
  unfold analyzeOggOpus
  rw [if_neg (by decide)]
  rw [oggRawDuration_len5]
  rfl

/-- Counterexample for C5 as stated: the 4-byte buffer "OggS" starts with
the signature but its page table is missing entirely (the page header is
truncated), yet the analyzer returns success — duration 1 from the
size-based fallback — not a ParseError. -/
theorem analyzeOggOpus_malformed_table_counterexample :
    byteSlice [79, 103, 103, 83] 0 4 = oggSBytes
    ∧ analyzeOggOpus (fun _ => 0) (fun _ _ => 0) [79, 103, 103, 83]
        = .ok (1, placeholderWaveform (fun _ => 0) (fun _ _ => 0) 1) :=
  ⟨by decide, analyzeOggOpus_oggS4_eval _ _⟩

/-- C9: the container analyzer is deterministic — byte-identical inputs
produce identical results — and the waveform is a function of the computed
duration alone: two successful analyses yielding the same duration yield
the same 64-byte waveform, for any fixed `math.Sin` and seeded random
stream. -/
theorem analyzeOggOpus_deterministic (sinQ : ℚ → ℚ) (rngOf : ℕ → ℕ → ℚ)
    (data1 data2 : List Nat) (dur : Nat) (w1 w2 : List Nat)
    (h1 : analyzeOggOpus sinQ rngOf data1 = .ok (dur, w1))
    (h2 : analyzeOggOpus sinQ rngOf data2 = .ok (dur, w2)) :
    (data1 = data2 → analyzeOggOpus sinQ rngOf data1 = analyzeOggOpus sinQ rngOf data2)
    ∧ w1 = w2 := by
  constructor
  · intro h
    rw [h]
  · rw [analyzeOggOpus_ok_waveform sinQ rngOf data1 dur w1 h1,
      analyzeOggOpus_ok_waveform sinQ rngOf data2 dur w2 h2]

/-- Witness for C9: two different buffers that both analyze to duration 1
get byte-identical waveforms. -/
theorem analyzeOggOpus_deterministic_witness :
    (analyzeOggOpus (fun _ => 0) (fun _ _ => 0) [79, 103, 103, 83]
        = .ok (1, placeholderWaveform (fun _ => 0) (fun _ _ => 0) 1)
      ∧ analyzeOggOpus (fun _ => 0) (fun _ _ => 0) [79, 103, 103, 83, 0]
        = .ok (1, placeholderWaveform (fun _ => 0) (fun _ _ => 0) 1)) ∧
    (([79, 103, 103, 83] : List Nat) = [79, 103, 103, 83, 0]
        → analyzeOggOpus (fun _ => 0) (fun _ _ => 0) [79, 103, 103, 83]
          = analyzeOggOpus (fun _ => 0) (fun _ _ => 0) [79, 103, 103, 83, 0])
    ∧ placeholderWaveform (fun _ => 0) (fun _ _ => 0) 1
        = placeholderWaveform (fun _ => 0) (fun _ _ => 0) 1 :=
  ⟨⟨analyzeOggOpus_oggS4_eval _ _, analyzeOggOpus_oggS5_eval _ _⟩,
    analyzeOggOpus_deterministic (fun _ => 0) (fun _ _ => 0)
      [79, 103, 103, 83] [79, 103, 103, 83, 0] 1 _ _
      (analyzeOggOpus_oggS4_eval _ _) (analyzeOggOpus_oggS5_eval _ _)⟩

/-! ## Claims about ListMessages -/

/-- C6 (amended): in `ListMessages` all filters are optional and
conjunctive; a non-empty `after` or `before` value the timestamp parser
rejects fails the whole call with a validation error before any query
runs; and both bounds are EXCLUSIVE: a returned row's timestamp is
strictly greater than the parsed `after` value and strictly less than the
parsed `before` value (a message with timestamp equal to either bound is
excluded). Conversely, with pagination wide enough every joined row
passing all active filters is returned. -/
theorem listMessages_filters_spec (parse : String → Option Ts) (db : DB)
    (p : ListMessagesParams) :
    ((p.After ≠ "" ∧ parse p.After = none) → ∃ e, ListMessages parse db p = .error e)
    ∧ ((p.Before ≠ "" ∧ parse p.Before = none) → ∃ e, ListMessages parse db p = .error e)
    ∧ (∀ rows, ListMessages parse db p = .ok rows →
        (∀ r ∈ rows,
          (∀ t, p.After ≠ "" → parse p.After = some t → t < r.timestamp)
          ∧ (∀ t, p.Before ≠ "" → parse p.Before = some t → r.timestamp < t)
          ∧ (∀ s, p.SenderPhoneNumber = some s → s ≠ "" → r.sender = s)
          ∧ (∀ cj, p.ChatJid = some cj → cj ≠ "" → r.chat_jid = cj)
          ∧ (∀ q, p.Query = some q → q ≠ "" → likeContains r.content q = true))
        ∧ (p.Page = 0 → db.messages.length ≤ p.Limit →
            ∀ x ∈ joinAll db, listMessagesCond parse p x = true →
              mkInteraction x.1 x.2 ∈ rows)) := by
  by_cases hA : p.After ≠ "" ∧ parse p.After = none
  · have hLM : ListMessages parse db p = .error ("invalid after format: " ++ p.After) := by
      unfold ListMessages
      rw [if_pos hA]
    refine ⟨fun _ => ⟨_, hLM⟩, fun _ => ⟨_, hLM⟩, ?_⟩
    intro rows hrows
    rw [hLM] at hrows
    exact absurd hrows (by simp)
  · by_cases hB : p.Before ≠ "" ∧ parse p.Before = none
    · have hLM : ListMessages parse db p
          = .error ("invalid before format: " ++ p.Before) := by
        unfold ListMessages
        rw [if_neg hA, if_pos hB]
      refine ⟨fun h => absurd h hA, fun _ => ⟨_, hLM⟩, ?_⟩
      intro rows hrows
      rw [hLM] at hrows
      exact absurd hrows (by simp)
    · have hLM : ListMessages parse db p
          = .ok ((((sortBy tsDescLe ((joinAll db).filter
              (listMessagesCond parse p))).drop (p.Page * p.Limit)).take p.Limit).map
                (fun x => mkInteraction x.1 x.2)) := by
        unfold ListMessages
        rw [if_neg hA, if_neg hB]
      refine ⟨fun h => absurd h hA, fun h => absurd h hB, ?_⟩
      intro rows hrows
      rw [hLM] at hrows
      injection hrows with hrows
      subst hrows
      constructor
      · intro r hr
        rcases List.mem_map.mp hr with ⟨x, hx, rfl⟩
        have hx2 : x ∈ sortBy tsDescLe ((joinAll db).filter (listMessagesCond parse p)) :=
          List.drop_subset _ _ (List.take_subset _ _ hx)
        rcases List.mem_filter.mp ((mem_sortBy _ _ _).mp hx2) with ⟨hjoin, hcond⟩
        have hjid : x.2.jid = x.1.chat_jid :=
          lookupChat_jid db _ _ ((mem_joinAll db x).mp hjoin).2
        unfold listMessagesCond at hcond
        simp only [Bool.and_eq_true] at hcond
        obtain ⟨⟨⟨⟨hcA, hcB⟩, hcS⟩, hcC⟩, hcQ⟩ := hcond
        refine ⟨?_, ?_, ?_, ?_, ?_⟩
        · intro t hne hpt
          have hfalse : (p.After == "") = false := by simpa using hne
          simp only [hpt, hfalse, Bool.false_or, decide_eq_true_eq] at hcA
          exact hcA
        · intro t hne hpt
          have hfalse : (p.Before == "") = false := by simpa using hne
          simp only [hpt, hfalse, Bool.false_or, decide_eq_true_eq] at hcB
          exact hcB
        · intro s hs hsne
          have hfalse : (s == "") = false := by simpa using hsne
          simp only [hs, hfalse, Bool.false_or, beq_iff_eq] at hcS
          exact hcS
        · intro cj hcj hcjne
          have hfalse : (cj == "") = false := by simpa using hcjne
          simp only [hcj, hfalse, Bool.false_or, beq_iff_eq] at hcC
          show x.2.jid = cj
          rw [hjid, hcC]
        · intro q hq hqne
          have hfalse : (q == "") = false := by simpa using hqne
          simp only [hq, hfalse, Bool.false_or] at hcQ
          exact hcQ
      · intro hpage hlim x hx hcond
        have hmemf : x ∈ (joinAll db).filter (listMessagesCond parse p) :=
          List.mem_filter.mpr ⟨hx, hcond⟩
        have hmems : x ∈ sortBy tsDescLe ((joinAll db).filter (listMessagesCond parse p)) :=
          (mem_sortBy _ _ _).mpr hmemf
        have hlen : (sortBy tsDescLe ((joinAll db).filter
            (listMessagesCond parse p))).length ≤ p.Limit := by
          rw [length_sortBy]
          calc ((joinAll db).filter (listMessagesCond parse p)).length
              ≤ (joinAll db).length := List.length_filter_le _ _
            _ ≤ db.messages.length := List.length_filterMap_le _ _
            _ ≤ p.Limit := hlim
        rw [hpage]
        simp only [Nat.zero_mul, List.drop_zero]
        rw [List.take_of_length_le hlen]
        exact List.mem_map.mpr ⟨x, hmems, rfl⟩

/-- Witness for C6's amended statement: an unparseable non-empty `after`
makes the concrete call fail with a validation error. -/
theorem listMessages_filters_spec_witness :
    (pC6bad.After ≠ "" ∧ parseC6 pC6bad.After = none) ∧
    (∃ e, ListMessages parseC6 dbC6 pC6bad = .error e) :=
  ⟨⟨by decide, by decide⟩,
    (listMessages_filters_spec parseC6 dbC6 pC6bad).1 ⟨by decide, by decide⟩⟩

/-- Counterexample for C6 as stated: the store holds a message with
timestamp exactly equal to the parsed `after` bound (100), satisfying every
other filter, yet `ListMessages` returns no rows — the `after` bound is
exclusive (`m.timestamp > ?`), not inclusive. -/
theorem listMessages_after_exclusive_counterexample :
    parseC6 pC6.After = some 100
    ∧ (⟨"m1", "c1@s.whatsapp.net", "alice", "hi", 100, false, "", "", "",
        [], [], [], 0⟩ : MessageRow) ∈ dbC6.messages
    ∧ ListMessages parseC6 dbC6 pC6 = .ok [] := by
  refine ⟨by decide, by decide, ?_⟩
  rfl

/-! ## Claims about the no-row point lookups -/

/-- C7: evaluation of the three point lookups on a store where no row
matches. `GetChat` returns an absent chat with no error and
`GetLastInteraction` an empty string with no error, as the claim states;
but `GetDirectChatByContact` returns the driver's no-rows failure — its
`Scan` error is forwarded with no `sql.ErrNoRows` special case, so the
claim's third part does not hold on the code. -/
theorem pointLookup_noRow_behavior :
    GetChat dbC7 "nope@s.whatsapp.net" true = .ok none
    ∧ GetLastInteraction dbC7 "9990001111" = .ok ""
    ∧ GetDirectChatByContact dbC7 "9990001111" = .error "sql: no rows in result set" :=
  ⟨rfl, rfl, rfl⟩

/-! ## Claims about history-sync chat persistence -/

/-- C8 (amended): for every conversation in a history-sync batch, the chat
row is persisted with the timestamp of the FIRST message in the
conversation's message list (`messages[0]`, the payload's head entry), and
the conversation is skipped entirely exactly when its id is absent or
unparseable, its message list is empty, or its first message is nil or
carries no timestamp — even when later messages do carry timestamps. -/
theorem historySync_chat_persist_spec (parseOk : String → Bool)
    (conv : HistoryConversation) (jid : String) (ts : Nat) :
    historySyncChatStore parseOk conv = some (jid, ts)
      ↔ conv.id = some jid ∧ parseOk jid = true ∧ ts ≠ 0
        ∧ ∃ info, conv.messages.head? = some (some info) ∧ info.timestamp = ts := by
  unfold historySyncChatStore
  cases hid : conv.id with
  | none => simp
  | some cid =>
    dsimp only
    by_cases hp : parseOk cid = true
    · rw [if_pos hp]
      cases hh : conv.messages.head? with
      | none => simp
      | some o =>
        cases o with
        | none => simp
        | some info =>
          dsimp only
          by_cases ht : info.timestamp ≠ 0
          · rw [if_pos ht]
            constructor
            · intro h
              injection h with h
              have h1 : cid = jid := congrArg Prod.fst h
              have h2 : info.timestamp = ts := congrArg Prod.snd h
              subst h1
              exact ⟨rfl, hp, h2 ▸ ht, info, rfl, h2⟩
            · rintro ⟨hj, _, _, info2, hh2, hts2⟩
              injection hj with hj
              subst hj
              injection hh2 with hh2
              injection hh2 with hh2
              subst hh2
              rw [hts2]
          · rw [if_neg ht]
            push_neg at ht
            constructor
            · intro h
              exact absurd h (by simp)
            · rintro ⟨hj, _, hts, info2, hh2, hts2⟩
              exfalso
              injection hh2 with hh2
              injection hh2 with hh2
              subst hh2
              exact hts (hts2 ▸ ht)
    · rw [if_neg hp]
      constructor
      · intro h
        exact absurd h (by simp)
      · rintro ⟨hj, hpj, _, _⟩
        exfalso
        injection hj with hj
        subst hj
        exact hp hpj

/-- Counterexample for C8 as stated: a conversation whose first message
(timestamp 5) is older than its second (timestamp 10) persists the chat
with 5, not with the most recent timestamp 10 found among its messages;
and a conversation whose first message carries no timestamp is skipped
entirely even though its second message carries timestamp 7. -/
theorem historySync_first_message_timestamp_counterexample :
    historySyncChatStore (fun _ => true) convC8a = some ("123@s.whatsapp.net", 5)
    ∧ mostRecentTimestamp convC8a = 10
    ∧ historySyncChatStore (fun _ => true) convC8b = none
    ∧ mostRecentTimestamp convC8b = 7 :=
  ⟨rfl, rfl, rfl, rfl⟩
